import Mathlib

/-!
# The push and logout commands of the docker client

A shallow embedding of `api/client/push.go`, `api/client/utils.go` (the credential part) and
`api/client/logout.go`.

* Go values `(x, err)` whose producer is in these files are `Except String x`; an `error` is its
  message (`err.Error()`), `nil` is `none`.
* The command-line client `cli` is a record that is passed through every function that touches
  it: its credential store, the lines still to be read on `cli.in`, what was written to `cli.out`
  and the world outside the process (daemon, registry, configuration file).
* Everything that lives outside the three files (the registry and reference packages, the
  engine-api client, the Go standard library) is a field of `Env`; theorems hold for every `Env`.
* `Session` pairs the client with a record of the calls the embedded code made on its
  collaborators. Collaborators never see that record.
-/

namespace Docker

/-! ## Data model -/

/-- Modelled from the spec: `types.AuthConfig` is declared in the engine-api library; the spec
describes a Credential as an "opaque identity+secret pair (username, secret, optional contact
identifier)". -/
structure AuthConfig where
  Username : String
  Password : String
  Email : String
deriving DecidableEq, Repr

/-- A Go `map[string]types.AuthConfig`, as the list of its entries. -/
abbrev AuthMap := List (String × AuthConfig)

/-- The comma-ok read `v, ok := m[k]`. -/
def mapLookup (m : AuthMap) (k : String) : Option AuthConfig :=
  (m.find? (fun e => e.1 == k)).map Prod.snd

/-- The builtin `delete(m, k)`. -/
def mapDelete (m : AuthMap) (k : String) : AuthMap :=
  m.filter (fun e => e.1 != k)

/-- The assignment `m[k] = v`. -/
def mapSet (m : AuthMap) (k : String) (v : AuthConfig) : AuthMap :=
  (k, v) :: mapDelete m k

/-- Modelled from the spec: `registrytypes.IndexInfo` is declared in the engine-api library; the
spec calls it the "canonical registry identity". The code only hands it to the registry package. -/
structure IndexInfo where
  Name : String
  Official : Bool
deriving DecidableEq, Repr

/-- The part of `registry.RepositoryInfo` the client reads. -/
structure RepositoryInfo where
  Index : IndexInfo
deriving DecidableEq, Repr

/-- A `reference.Named` value: `tag` is present when the value is a `reference.NamedTagged`,
`digest` when it is a `reference.Canonical`. -/
structure Reference where
  Name : String
  tag : Option String
  digest : Option String
deriving DecidableEq, Repr

/-- The fields of `types.ImagePushOptions` the client fills in. -/
structure ImagePushOptions where
  ImageID : String
  Tag : String
  RegistryAuth : String
  Force : Bool
deriving DecidableEq, Repr

/-- The part of `types.Info` the client reads. -/
structure Info where
  IndexServerName : String
deriving DecidableEq, Repr

/-- An `io.ReadCloser` response body, as its content. -/
abbrev ReadCloser := String

/-- The client: `cli.configFile.AuthConfigs`, the lines not yet read from `cli.in`, the writes made
to `cli.out` (oldest first) and the world outside the process. -/
structure DockerCli (ω : Type) where
  AuthConfigs : AuthMap
  inp : List String
  out : List String
  world : ω
deriving DecidableEq

/-- A `client.RequestPrivilegeFunc`: `func() (string, error)`, run against the client. -/
abbrev RequestPrivilegeFunc (ω : Type) := DockerCli ω → Except String String × DockerCli ω

/-- A call made by the embedded code on one of its collaborators. -/
inductive Call where
  | ImagePush (options : ImagePushOptions)
  | Info
  | Save (auths : AuthMap)
deriving DecidableEq, Repr

/-- The client together with the calls made so far (oldest first). -/
structure Session (ω : Type) where
  cli : DockerCli ω
  calls : List Call
deriving DecidableEq

/-- The collaborators of the three files. -/
structure Env (ω : Type) where
  /-- The rune mapping `unicode.ToLower`. -/
  unicodeToLower : Char → Char
  /-- The function `reference.ParseNamed`. -/
  ParseNamed : String → Except String Reference
  /-- The function `registry.ParseRepositoryInfo`. -/
  ParseRepositoryInfo : Reference → Except String RepositoryInfo
  /-- The function `reference.IsReferenceFullyQualified`. -/
  IsReferenceFullyQualified : Reference → Bool
  /-- The function `registry.ResolveAuthConfig`. -/
  ResolveAuthConfig : AuthMap → IndexInfo → AuthConfig
  /-- The function `registry.GetAuthConfigKey`. -/
  GetAuthConfigKey : IndexInfo → String
  /-- The function `json.Marshal` on a credential map. -/
  jsonMarshal : AuthMap → Except String String
  /-- The function `base64.URLEncoding.EncodeToString`. -/
  base64URLEncode : String → String
  /-- The engine-api call `cli.client.ImagePush`: it is given the callback and the client the
  callback works on, and returns the pair `(io.ReadCloser, error)`. -/
  ImagePush : ImagePushOptions → RequestPrivilegeFunc ω → DockerCli ω →
    (Option ReadCloser × Option String) × DockerCli ω
  /-- The interactive login `cli.configureAuth(flUser, flPassword, flEmail, serverAddress)`. -/
  configureAuth : String → String → String → String → DockerCli ω →
    Except String AuthConfig × DockerCli ω
  /-- The engine-api call `cli.client.Info`. -/
  Info : ω → Except String Info × ω
  /-- The value of `registry.IndexServerName()`. -/
  IndexServerName : String
  /-- The constant `registry.IndexName`. -/
  IndexName : String
  /-- The constant `registry.IndexServer`. -/
  IndexServer : String
  /-- The method `cli.configFile.Save`, which writes the given store to disk. -/
  Save : AuthMap → ω → Option String × ω
  /-- The value of `isTrusted()`. -/
  isTrusted : Bool
  /-- The method `cli.trustedPush`. -/
  trustedPush : Reference → RepositoryInfo → String → Bool → RequestPrivilegeFunc ω →
    DockerCli ω → Option String × DockerCli ω
  /-- The function `jsonmessage.DisplayJSONMessagesStream` writing to `cli.out`. -/
  DisplayJSONMessagesStream : ReadCloser → DockerCli ω → Option String × DockerCli ω

/-! ## Standard-library string functions -/

/-- The predicate `unicode.IsSpace`. -/
def unicodeIsSpace (c : Char) : Bool :=
  let n := c.toNat
  if n ≤ 0xFF then
    n == 0x09 || n == 0x0A || n == 0x0B || n == 0x0C || n == 0x0D || n == 0x20 ||
      n == 0x85 || n == 0xA0
  else
    n == 0x1680 || (0x2000 ≤ n && n ≤ 0x200A) || n == 0x2028 || n == 0x2029 ||
      n == 0x202F || n == 0x205F || n == 0x3000

/-- The function `strings.TrimSpace`. -/
def TrimSpace (s : String) : String :=
  String.mk ((s.data.dropWhile unicodeIsSpace).rdropWhile unicodeIsSpace)

/-- The function `strings.ToLower`: the rune mapping applied to every rune. -/
def ToLower {ω : Type} (E : Env ω) (s : String) : String :=
  String.mk (s.data.map E.unicodeToLower)

/-- Whether `sub` occurs in `l` as a block of consecutive runes. -/
def hasInfix (sub : List Char) : List Char → Bool
  | [] => sub.isEmpty
  | c :: cs => sub.isPrefixOf (c :: cs) || hasInfix sub cs

/-- The function `strings.Contains`. -/
def Contains (s substr : String) : Bool :=
  hasInfix substr.data s.data

/-- The text `fmt.Sprintf("Status %d", http.StatusForbidden)`. -/
def statusForbidden : String := "Status 403"

/-! ## utils.go -/

/-- The function `encodeAuthToBase64`. -/
def encodeAuthToBase64 {ω : Type} (E : Env ω) (authConfigs : AuthMap) : Except String String :=
  match E.jsonMarshal authConfigs with
  | .error err => .error err
  | .ok buf => .ok (E.base64URLEncode buf)

/-- The method `getEncodedAuth`. -/
def getEncodedAuth {ω : Type} (E : Env ω) (cli : DockerCli ω) (ref : Reference) :
    Except String String :=
  match E.ParseRepositoryInfo ref with
  | .error err => .error err
  | .ok repoInfo =>
    let auths : AuthMap :=
      if E.IsReferenceFullyQualified ref then
        let authConfig := E.ResolveAuthConfig cli.AuthConfigs repoInfo.Index
        let authConfigKey := E.GetAuthConfigKey repoInfo.Index
        mapSet [] authConfigKey authConfig
      else
        cli.AuthConfigs
    match encodeAuthToBase64 E auths with
    | .error err => .error err
    | .ok encoded => .ok encoded

/-- The method `registryAuthenticationPrivilegedFunc`: the closure it returns. -/
def registryAuthenticationPrivilegedFunc {ω : Type} (E : Env ω) (index : IndexInfo)
    (cmdName : String) (singleAuth : Bool) : RequestPrivilegeFunc ω :=
  fun cli =>
    let cli1 := { cli with out := cli.out ++ ["\nPlease login prior to " ++ cmdName ++ ":\n"] }
    let indexServer := E.GetAuthConfigKey index
    match E.configureAuth "" "" "" indexServer cli1 with
    | (.error err, cli2) => (.error err, cli2)
    | (.ok authConfig, cli2) =>
      let auths : AuthMap :=
        if singleAuth then mapSet [] indexServer authConfig else cli2.AuthConfigs
      (encodeAuthToBase64 E auths, cli2)

/-! ## push.go -/

/-- The prompt of `confirmPush`. -/
def confirmPrompt : String := "Do you really want to push to public registry? [y/n]: "

/-- Modelled from the spec: `readInput` is defined outside the sources; the spec has the prompt
"block on interactive input", so a call hands over the next line of `cli.in`. The loop of
`confirmPush`, entered with the current `answer`: while the answer is neither "n" nor "y" the
prompt is written and a line is read. When no line is left the read does not return and the run
stops there (`none`). -/
def confirmLoop {ω : Type} (E : Env ω) : List String → String → List String →
    Option String × List String × List String
  | [], answer, out =>
    if answer != "n" && answer != "y" then (none, [], out ++ [confirmPrompt])
    else (some answer, [], out)
  | line :: rest, answer, out =>
    if answer != "n" && answer != "y" then
      confirmLoop E rest (ToLower E (TrimSpace line)) (out ++ [confirmPrompt])
    else (some answer, line :: rest, out)

/-- The method `confirmPush`; `none` when the run stopped inside the loop. -/
def confirmPush {ω : Type} (E : Env ω) (cli : DockerCli ω) : Option Bool × DockerCli ω :=
  match confirmLoop E cli.inp "" (cli.out ++ ["\n"]) with
  | (none, inp, out) => (none, { cli with inp := inp, out := out })
  | (some answer, inp, out) =>
    let out1 := if answer == "n" then out ++ ["Nothing pushed.\n"] else out
    (some (answer == "y"), { cli with inp := inp, out := out1 })

/-- The call `cli.client.ImagePush(options, requestPrivilege)`, entered in the record. -/
def clientImagePush {ω : Type} (E : Env ω) (options : ImagePushOptions)
    (requestPrivilege : RequestPrivilegeFunc ω) (s : Session ω) :
    (Option ReadCloser × Option String) × Session ω :=
  let r := E.ImagePush options requestPrivilege s.cli
  (r.1, { cli := r.2, calls := s.calls ++ [Call.ImagePush options] })

/-- The method `imagePushPrivileged`; `none` when the run stopped inside `confirmPush`. -/
def imagePushPrivileged {ω : Type} (E : Env ω) (ref : Reference) (tag : String) (force : Bool)
    (requestPrivilege : RequestPrivilegeFunc ω) (s : Session ω) :
    Option (Option ReadCloser × Option String) × Session ω :=
  match getEncodedAuth E s.cli ref with
  | .error err => (some (none, some err), s)
  | .ok encodedAuth =>
    let options : ImagePushOptions :=
      { ImageID := ref.Name, Tag := tag, RegistryAuth := encodedAuth, Force := force }
    match clientImagePush E options requestPrivilege s with
    | ((responseBody, none), s1) => (some (responseBody, none), s1)
    | ((responseBody, some err), s1) =>
      if Contains err statusForbidden && !force then
        match confirmPush E s1.cli with
        | (none, cli2) => (none, { s1 with cli := cli2 })
        | (some false, cli2) => (some (none, none), { s1 with cli := cli2 })
        | (some true, cli2) =>
          clientImagePush E { options with Force := true } requestPrivilege
            { s1 with cli := cli2 } |>.map some id
      else (some (responseBody, some err), s1)

/-- The method `CmdPush`, from the parsed command line on: `name` is the one positional argument,
`force` the value of the flag. `none` when the run stopped inside `confirmPush`. -/
def CmdPush {ω : Type} (E : Env ω) (name : String) (force : Bool) (s : Session ω) :
    Option (Option String) × Session ω :=
  match E.ParseNamed name with
  | .error err => (some (some err), s)
  | .ok ref =>
    match ref.digest with
    | some _ => (some (some "cannot push a digest reference"), s)
    | none =>
      let tag : String := match ref.tag with
        | some t => t
        | none => ""
      match E.ParseRepositoryInfo ref with
      | .error err => (some (some err), s)
      | .ok repoInfo =>
        let requestPrivilege := registryAuthenticationPrivilegedFunc E repoInfo.Index "push"
          (E.IsReferenceFullyQualified ref)
        if E.isTrusted then
          let r := E.trustedPush ref repoInfo tag force requestPrivilege s.cli
          (some r.1, { s with cli := r.2 })
        else
          match imagePushPrivileged E ref tag force requestPrivilege s with
          | (none, s1) => (none, s1)
          | (some (_, some err), s1) => (some (some err), s1)
          | (some (none, none), s1) => (some none, s1)
          | (some (some responseBody, none), s1) =>
            let r := E.DisplayJSONMessagesStream responseBody s1.cli
            (some r.1, { s1 with cli := r.2 })

/-! ## logout.go -/

/-- The call `cli.client.Info()`, entered in the record. -/
def clientInfo {ω : Type} (E : Env ω) (s : Session ω) : Except String Info × Session ω :=
  let r := E.Info s.cli.world
  (r.1, { cli := { s.cli with world := r.2 }, calls := s.calls ++ [Call.Info] })

/-- The call `cli.configFile.Save()`, entered in the record. -/
def configFileSave {ω : Type} (E : Env ω) (s : Session ω) : Option String × Session ω :=
  let r := E.Save s.cli.AuthConfigs s.cli.world
  (r.1, { cli := { s.cli with world := r.2 },
          calls := s.calls ++ [Call.Save s.cli.AuthConfigs] })

/-- Append one write to `cli.out`. -/
def Session.write {ω : Type} (s : Session ω) (text : String) : Session ω :=
  { s with cli := { s.cli with out := s.cli.out ++ [text] } }

/-- The method `CmdLogout`, from the parsed command line on: `args` is `cmd.Args()`. -/
def CmdLogout {ω : Type} (E : Env ω) (args : List String) (s : Session ω) :
    Option String × Session ω :=
  let serverAddress0 := E.IndexServerName
  let r := clientInfo E s
  let p : String × Session ω := match r.1 with
    | .error err =>
      (serverAddress0, r.2.write ("Warning: failed to get default registry endpoint from daemon ("
        ++ err ++ "). Using system default: " ++ serverAddress0 ++ "\n"))
    | .ok info => (info.IndexServerName, r.2)
  let serverAddress1 := match args with
    | arg0 :: _ => arg0
    | [] => p.1
  let serverAddress := if serverAddress1 = E.IndexName then E.IndexServer else serverAddress1
  match mapLookup p.2.cli.AuthConfigs serverAddress with
  | none => (none, p.2.write ("Not logged in to " ++ serverAddress ++ "\n"))
  | some _ =>
    let s2 := p.2.write ("Remove login credentials for " ++ serverAddress ++ "\n")
    let s3 : Session ω :=
      { s2 with cli := { s2.cli with AuthConfigs := mapDelete s2.cli.AuthConfigs serverAddress } }
    match configFileSave E s3 with
    | (some err, s4) => (some ("Failed to save docker config: " ++ err), s4)
    | (none, s4) => (none, s4)

/-! ## Vocabulary of the statements -/

/-- The answer `confirmPush` takes from a line: trimmed, then lower-cased. -/
def answerOf {ω : Type} (E : Env ω) (line : String) : String :=
  ToLower E (TrimSpace line)

/-- What `confirmPush` has written once it has read `n` lines and taken `answer` from the last. -/
def confirmOutput (n : Nat) (answer : String) : List String :=
  "\n" :: List.replicate n confirmPrompt ++
    (if answer = "n" then ["Nothing pushed.\n"] else [])

/-- The client after `confirmPush` has read `n` lines, the last one giving `answer`, and left
`rest` unread. -/
def afterConfirm {ω : Type} (cli : DockerCli ω) (n : Nat) (answer : String)
    (rest : List String) : DockerCli ω :=
  { cli with inp := rest, out := cli.out ++ confirmOutput n answer }

/-- The options of the first attempt of `imagePushPrivileged`. -/
def firstOptions (ref : Reference) (tag token : String) (force : Bool) : ImagePushOptions :=
  { ImageID := ref.Name, Tag := tag, RegistryAuth := token, Force := force }

/-- The server address `CmdLogout` works on: the argument if given, otherwise what the daemon
reported, or the system default when the daemon call failed; `registry.IndexName` stands for
`registry.IndexServer`. -/
def logoutServerAddress {ω : Type} (E : Env ω) (args : List String)
    (info : Except String Info) : String :=
  let chosen : String :=
    match args, info with
    | arg0 :: _, _ => arg0
    | [], .ok i => i.IndexServerName
    | [], .error _ => E.IndexServerName
  if chosen = E.IndexName then E.IndexServer else chosen

/-- The session once `CmdLogout` has asked the daemon for its index server: the call is in the
record, the world is the one the call left, and the warning is written when the call failed. -/
def afterInfo {ω : Type} (E : Env ω) (s : Session ω) : Session ω :=
  match (E.Info s.cli.world).1 with
  | .error err =>
    (clientInfo E s).2.write ("Warning: failed to get default registry endpoint from daemon ("
      ++ err ++ "). Using system default: " ++ E.IndexServerName ++ "\n")
  | .ok _ => (clientInfo E s).2

/-- The session `CmdLogout` hands to `Save` when it removes the entry under `addr`. -/
def beforeSave {ω : Type} (E : Env ω) (s : Session ω) (addr : String) : Session ω :=
  { cli := { ((afterInfo E s).write ("Remove login credentials for " ++ addr ++ "\n")).cli with
             AuthConfigs := mapDelete s.cli.AuthConfigs addr },
    calls := s.calls ++ [Call.Info] }

/-! ## A concrete setting -/

/-- A small registry world: the daemon refuses an unforced push with a forbidden status and
accepts a forced one; it never asks for privilege. The world counts the pushes it received. -/
def demoEnv : Env Nat where
  unicodeToLower := Char.toLower
  ParseNamed := fun s =>
    if s = "app@sha256:0" then .ok { Name := "app", tag := none, digest := some "sha256:0" }
    else .ok { Name := s, tag := none, digest := none }
  ParseRepositoryInfo := fun _ =>
    .ok { Index := { Name := "registry.example.com", Official := false } }
  IsReferenceFullyQualified := fun ref => ref.Name == "registry.example.com/team/app"
  ResolveAuthConfig := fun m idx => (mapLookup m idx.Name).getD ⟨"", "", ""⟩
  GetAuthConfigKey := fun idx => idx.Name
  jsonMarshal := fun m =>
    .ok (String.join (m.map (fun e => e.1 ++ "=" ++ e.2.Username ++ ";")))
  base64URLEncode := fun s => s
  ImagePush := fun o _ cli =>
    if o.Force then ((some "pushed", none), { cli with world := cli.world + 1 })
    else ((none, some "Error: Status 403 trying to push"), { cli with world := cli.world + 1 })
  configureAuth := fun _ _ _ server cli =>
    (.ok ⟨"alice", "s3cret", "a@x"⟩,
      { cli with AuthConfigs := mapSet cli.AuthConfigs server ⟨"alice", "s3cret", "a@x"⟩ })
  Info := fun w => (.ok ⟨"registry.example.com"⟩, w)
  IndexServerName := "docker.io"
  IndexName := "docker.io"
  IndexServer := "https://index.docker.io/v1/"
  Save := fun _ w => (none, w)
  isTrusted := false
  trustedPush := fun _ _ _ _ _ cli => (none, cli)
  DisplayJSONMessagesStream := fun body cli => (none, { cli with out := cli.out ++ [body] })

/-- The world of `demoEnv` with a daemon that answers every push with `reply`. -/
def demoEnvReplying (reply : Option ReadCloser × Option String) : Env Nat :=
  { demoEnv with ImagePush := fun _ _ cli => (reply, { cli with world := cli.world + 1 }) }

/-- Two stored credentials. -/
def demoStore : AuthMap :=
  [("registry.example.com", ⟨"bob", "pw", "b@x"⟩), ("other.io", ⟨"carol", "pw2", "c@x"⟩)]

/-- A client whose user will type the given lines. -/
def demoCli (lines : List String) : DockerCli Nat :=
  { AuthConfigs := demoStore, inp := lines, out := [], world := 0 }

/-- A fully qualified reference of `demoEnv`. -/
def demoRef : Reference :=
  { Name := "registry.example.com/team/app", tag := some "v1", digest := none }

/-- The index `demoEnv` resolves every reference to. -/
def demoIndex : IndexInfo := { Name := "registry.example.com", Official := false }

/-- The callback `CmdPush` builds for `demoRef`. -/
def demoPrivilege : RequestPrivilegeFunc Nat :=
  registryAuthenticationPrivilegedFunc demoEnv demoIndex "push" true

/-! ## Lemmas on the confirmation loop -/

theorem confirmLoop_settled {ω : Type} (E : Env ω) (inp : List String) (a : String)
    (out : List String) (h : a = "n" ∨ a = "y") :
    confirmLoop E inp a out = (some a, inp, out) := by
  cases inp <;> rcases h with rfl | rfl <;> simp [confirmLoop]

theorem confirmLoop_scan {ω : Type} (E : Env ω) (l : String) (rest : List String)
    (hl : answerOf E l = "n" ∨ answerOf E l = "y") :
    ∀ (pre : List String) (a : String) (out : List String), a ≠ "n" → a ≠ "y" →
      (∀ x ∈ pre, answerOf E x ≠ "n" ∧ answerOf E x ≠ "y") →
      confirmLoop E (pre ++ l :: rest) a out
        = (some (answerOf E l), rest, out ++ List.replicate (pre.length + 1) confirmPrompt) := by
  intro pre
  induction pre with
  | nil =>
    intro a out hn hy _
    have h := confirmLoop_settled E rest (answerOf E l) (out ++ [confirmPrompt]) hl
    simpa [confirmLoop, hn, hy, answerOf] using h
  | cons x xs ih =>
    intro a out hn hy hpre
    have hx := hpre x (List.mem_cons_self x xs)
    have hxs : ∀ y ∈ xs, answerOf E y ≠ "n" ∧ answerOf E y ≠ "y" :=
      fun y hy => hpre y (List.mem_cons_of_mem x hy)
    have h := ih (answerOf E x) (out ++ [confirmPrompt]) hx.1 hx.2 hxs
    have hcond : (a != "n" && a != "y") = true := by simp [hn, hy]
    rw [List.cons_append, confirmLoop, if_pos hcond]
    simp only [answerOf] at h ⊢
    rw [h]
    simp [List.replicate_succ, List.append_assoc]

theorem confirmPush_scan {ω : Type} (E : Env ω) (cli : DockerCli ω) (pre : List String)
    (l : String) (rest : List String) (hinp : cli.inp = pre ++ l :: rest)
    (hpre : ∀ x ∈ pre, answerOf E x ≠ "n" ∧ answerOf E x ≠ "y")
    (hl : answerOf E l = "n" ∨ answerOf E l = "y") :
    confirmPush E cli
      = (some (answerOf E l == "y"), afterConfirm cli (pre.length + 1) (answerOf E l) rest) := by
  have h := confirmLoop_scan E l rest hl pre "" (cli.out ++ ["\n"]) (by decide) (by decide) hpre
  unfold confirmPush
  rw [hinp, h]
  rcases hl with hl | hl <;> simp [afterConfirm, confirmOutput, hl]

theorem first_answer_split {ω : Type} (E : Env ω) :
    ∀ (inp : List String), (∃ l ∈ inp, answerOf E l = "n" ∨ answerOf E l = "y") →
      ∃ pre l rest, inp = pre ++ l :: rest ∧
        (∀ x ∈ pre, answerOf E x ≠ "n" ∧ answerOf E x ≠ "y") ∧
        (answerOf E l = "n" ∨ answerOf E l = "y") := by
  intro inp
  induction inp with
  | nil => rintro ⟨l, hl, _⟩; cases hl
  | cons x xs ih =>
    rintro ⟨l, hmem, hl⟩
    by_cases hx : answerOf E x = "n" ∨ answerOf E x = "y"
    · exact ⟨[], x, xs, rfl, by simp, hx⟩
    · have hex : ∃ l ∈ xs, answerOf E l = "n" ∨ answerOf E l = "y" := by
        rcases List.mem_cons.mp hmem with rfl | h
        · exact absurd hl hx
        · exact ⟨l, h, hl⟩
      obtain ⟨pre, l0, rest, hsplit, hpre, hl0⟩ := ih hex
      refine ⟨x :: pre, l0, rest, by simp [hsplit], ?_, hl0⟩
      intro y hy
      rcases List.mem_cons.mp hy with rfl | h
      · exact ⟨fun h => hx (Or.inl h), fun h => hx (Or.inr h)⟩
      · exact hpre y h

/-! ## Lemmas on `imagePushPrivileged` -/

/-- When the first attempt is not a forbidden error met without force, the run is that attempt. -/
theorem imagePushPrivileged_one_attempt {ω : Type} (E : Env ω) (ref : Reference) (tag : String)
    (force : Bool) (cb : RequestPrivilegeFunc ω) (s : Session ω) (tok : String)
    (body : Option ReadCloser) (err : Option String) (cli1 : DockerCli ω)
    (htok : getEncodedAuth E s.cli ref = .ok tok)
    (hpush : E.ImagePush (firstOptions ref tag tok force) cb s.cli = ((body, err), cli1))
    (hskip : ∀ e, err = some e → (Contains e statusForbidden && !force) = false) :
    imagePushPrivileged E ref tag force cb s
      = (some (body, err),
          { cli := cli1, calls := s.calls ++ [Call.ImagePush (firstOptions ref tag tok force)] }) := by
  unfold imagePushPrivileged clientImagePush
  simp only [htok]
  simp only [firstOptions] at hpush
  rw [hpush]
  cases err with
  | none => rfl
  | some e => simp [hskip e rfl, firstOptions]

/-- When the first attempt is a forbidden error met without force, the run goes on with
`confirmPush` on the client the attempt left. -/
theorem imagePushPrivileged_forbidden {ω : Type} (E : Env ω) (ref : Reference) (tag : String)
    (cb : RequestPrivilegeFunc ω) (s : Session ω) (tok : String)
    (body : Option ReadCloser) (err : String) (cli1 : DockerCli ω)
    (htok : getEncodedAuth E s.cli ref = .ok tok)
    (hpush : E.ImagePush (firstOptions ref tag tok false) cb s.cli = ((body, some err), cli1))
    (h403 : Contains err statusForbidden = true) :
    imagePushPrivileged E ref tag false cb s
      = match confirmPush E cli1 with
        | (none, cli2) =>
          (none, { cli := cli2, calls := s.calls ++ [Call.ImagePush (firstOptions ref tag tok false)] })
        | (some false, cli2) =>
          (some (none, none),
            { cli := cli2, calls := s.calls ++ [Call.ImagePush (firstOptions ref tag tok false)] })
        | (some true, cli2) =>
          (some (E.ImagePush (firstOptions ref tag tok true) cb cli2).1,
            { cli := (E.ImagePush (firstOptions ref tag tok true) cb cli2).2,
              calls := s.calls ++ [Call.ImagePush (firstOptions ref tag tok false),
                Call.ImagePush (firstOptions ref tag tok true)] }) := by
  unfold imagePushPrivileged clientImagePush
  simp only [htok]
  simp only [firstOptions] at hpush ⊢
  rw [hpush]
  simp only [h403, Bool.not_false, Bool.and_self, ite_true]
  rcases hc : confirmPush E cli1 with ⟨_ | _ | _, cli2⟩ <;> simp [Prod.map]

/-- Every run of `imagePushPrivileged` adds at most two calls, all of them pushes. -/
theorem imagePushPrivileged_calls {ω : Type} (E : Env ω) (ref : Reference) (tag : String)
    (force : Bool) (cb : RequestPrivilegeFunc ω) (s : Session ω) :
    ∃ new : List Call, (imagePushPrivileged E ref tag force cb s).2.calls = s.calls ++ new ∧
      new.length ≤ 2 ∧ ∀ c ∈ new, ∃ o, c = Call.ImagePush o := by
  rcases htok : getEncodedAuth E s.cli ref with err | tok
  · exact ⟨[], by simp [imagePushPrivileged, htok], by simp, by simp⟩
  · rcases hpush : E.ImagePush (firstOptions ref tag tok force) cb s.cli with ⟨⟨body, err⟩, cli1⟩
    by_cases hskip : ∀ e, err = some e → (Contains e statusForbidden && !force) = false
    · rw [imagePushPrivileged_one_attempt E ref tag force cb s tok body err cli1 htok hpush hskip]
      exact ⟨[Call.ImagePush (firstOptions ref tag tok force)], rfl, by simp, by simp⟩
    · push_neg at hskip
      obtain ⟨e, rfl, he⟩ := hskip
      have h403 : Contains e statusForbidden = true := by
        cases hc : Contains e statusForbidden <;> simp_all
      have hforce : force = false := by
        cases force <;> simp_all
      subst hforce
      rw [imagePushPrivileged_forbidden E ref tag cb s tok body e cli1 htok hpush h403]
      rcases confirmPush E cli1 with ⟨_ | _ | _, cli2⟩
      · exact ⟨[Call.ImagePush (firstOptions ref tag tok false)], rfl, by simp, by simp⟩
      · exact ⟨[Call.ImagePush (firstOptions ref tag tok false)], rfl, by simp, by simp⟩
      · exact ⟨[Call.ImagePush (firstOptions ref tag tok false),
          Call.ImagePush (firstOptions ref tag tok true)], rfl, by simp, by simp⟩

/-! ## Lemmas on the credential map -/

theorem mapLookup_mapDelete_self (m : AuthMap) (k : String) :
    mapLookup (mapDelete m k) k = none := by
  induction m with
  | nil => rfl
  | cons e es ih =>
    obtain ⟨a, v⟩ := e
    have hstep : mapDelete ((a, v) :: es) k
        = if a = k then mapDelete es k else (a, v) :: mapDelete es k := by
      by_cases h : a = k <;> simp [mapDelete, List.filter_cons, h]
    rw [hstep]
    by_cases h : a = k
    · rw [if_pos h]; exact ih
    · rw [if_neg h]
      have hfind : mapLookup ((a, v) :: mapDelete es k) k = mapLookup (mapDelete es k) k := by
        simp [mapLookup, List.find?_cons, h]
      rw [hfind]; exact ih

theorem mapLookup_mapDelete_other (m : AuthMap) (k k2 : String) (hk : k2 ≠ k) :
    mapLookup (mapDelete m k) k2 = mapLookup m k2 := by
  induction m with
  | nil => rfl
  | cons e es ih =>
    obtain ⟨a, v⟩ := e
    have hstep : mapDelete ((a, v) :: es) k
        = if a = k then mapDelete es k else (a, v) :: mapDelete es k := by
      by_cases h : a = k <;> simp [mapDelete, List.filter_cons, h]
    have hhead : mapLookup ((a, v) :: es) k2
        = if a = k2 then some v else mapLookup es k2 := by
      by_cases h : a = k2 <;> simp [mapLookup, List.find?_cons, h]
    rw [hstep, hhead]
    by_cases h : a = k
    · have h2 : ¬ a = k2 := fun h3 => hk (h3.symm.trans h)
      rw [if_pos h, if_neg h2]; exact ih
    · rw [if_neg h]
      have hhead2 : mapLookup ((a, v) :: mapDelete es k) k2
          = if a = k2 then some v else mapLookup (mapDelete es k) k2 := by
        by_cases h3 : a = k2 <;> simp [mapLookup, List.find?_cons, h3]
      rw [hhead2, ih]

/-! ## The claims -/

/-- C1: whenever the repository of the reference resolves, the token of `getEncodedAuth` is the
encoding of a mapping chosen by the qualification of the reference alone. For a fully qualified
reference the mapping has the single entry "auth-config key of the resolved index ↦ credential
resolved for that index from the store" (whatever the store holds); otherwise the mapping is the
whole store. -/
theorem getEncodedAuth_mapping {ω : Type} (E : Env ω) (cli : DockerCli ω) (ref : Reference)
    (repoInfo : RepositoryInfo) (hrepo : E.ParseRepositoryInfo ref = .ok repoInfo) :
    (E.IsReferenceFullyQualified ref = true →
      getEncodedAuth E cli ref
        = encodeAuthToBase64 E [(E.GetAuthConfigKey repoInfo.Index,
            E.ResolveAuthConfig cli.AuthConfigs repoInfo.Index)]) ∧
    (E.IsReferenceFullyQualified ref = false →
      getEncodedAuth E cli ref = encodeAuthToBase64 E cli.AuthConfigs) := by
  constructor
  · intro hq
    unfold getEncodedAuth
    simp only [hrepo, hq, ite_true, mapSet, mapDelete, List.filter_nil]
    generalize encodeAuthToBase64 E [(E.GetAuthConfigKey repoInfo.Index,
      E.ResolveAuthConfig cli.AuthConfigs repoInfo.Index)] = r
    cases r <;> rfl
  · intro hq
    unfold getEncodedAuth
    simp only [hrepo, hq, Bool.false_eq_true, ite_false]
    generalize encodeAuthToBase64 E cli.AuthConfigs = r
    cases r <;> rfl

theorem getEncodedAuth_mapping_witness :
    demoEnv.ParseRepositoryInfo demoRef = .ok { Index := demoIndex } ∧
    getEncodedAuth demoEnv (demoCli []) demoRef
      = encodeAuthToBase64 demoEnv [("registry.example.com", ⟨"bob", "pw", "b@x"⟩)] :=
  ⟨rfl, (getEncodedAuth_mapping demoEnv (demoCli []) demoRef { Index := demoIndex } rfl).1
    (by decide)⟩

/-- C7: when the login run by the callback of `registryAuthenticationPrivilegedFunc` succeeds with
credential `c`, the callback returns the encoding of the single entry "auth-config key of the
index ↦ c" if the single-registry flag is set, and the encoding of the store as the login left it
otherwise. -/
theorem registryAuthenticationPrivilegedFunc_token {ω : Type} (E : Env ω) (index : IndexInfo)
    (cmdName : String) (singleAuth : Bool) (cli cli2 : DockerCli ω) (c : AuthConfig)
    (hlogin : E.configureAuth "" "" "" (E.GetAuthConfigKey index)
        { cli with out := cli.out ++ ["\nPlease login prior to " ++ cmdName ++ ":\n"] }
      = (.ok c, cli2)) :
    (singleAuth = true →
      registryAuthenticationPrivilegedFunc E index cmdName singleAuth cli
        = (encodeAuthToBase64 E [(E.GetAuthConfigKey index, c)], cli2)) ∧
    (singleAuth = false →
      registryAuthenticationPrivilegedFunc E index cmdName singleAuth cli
        = (encodeAuthToBase64 E cli2.AuthConfigs, cli2)) := by
  constructor <;> intro hs <;>
    simp [registryAuthenticationPrivilegedFunc, hlogin, hs, mapSet, mapDelete]

theorem registryAuthenticationPrivilegedFunc_token_witness :
    demoEnv.configureAuth "" "" "" (demoEnv.GetAuthConfigKey demoIndex)
        { demoCli [] with out := (demoCli []).out ++ ["\nPlease login prior to " ++ "push" ++ ":\n"] }
      = (.ok ⟨"alice", "s3cret", "a@x"⟩,
          { AuthConfigs := [("registry.example.com", ⟨"alice", "s3cret", "a@x"⟩),
              ("other.io", ⟨"carol", "pw2", "c@x"⟩)],
            inp := [], out := ["\nPlease login prior to push:\n"], world := 0 }) ∧
    registryAuthenticationPrivilegedFunc demoEnv demoIndex "push" false (demoCli [])
      = (.ok "registry.example.com=alice;other.io=carol;",
          { AuthConfigs := [("registry.example.com", ⟨"alice", "s3cret", "a@x"⟩),
              ("other.io", ⟨"carol", "pw2", "c@x"⟩)],
            inp := [], out := ["\nPlease login prior to push:\n"], world := 0 }) :=
  ⟨rfl,
    (registryAuthenticationPrivilegedFunc_token demoEnv demoIndex "push" false (demoCli [])
      { AuthConfigs := [("registry.example.com", ⟨"alice", "s3cret", "a@x"⟩),
          ("other.io", ⟨"carol", "pw2", "c@x"⟩)],
        inp := [], out := ["\nPlease login prior to push:\n"], world := 0 }
      ⟨"alice", "s3cret", "a@x"⟩ rfl).2 rfl⟩

/-- C5: `CmdPush` on a name that parses to a reference carrying a digest returns the error
"cannot push a digest reference" and leaves the session as it was: nothing is written, no call
is made on the daemon. -/
theorem CmdPush_digest_rejected {ω : Type} (E : Env ω) (name : String) (force : Bool)
    (s : Session ω) (ref : Reference) (d : String)
    (hparse : E.ParseNamed name = .ok ref) (hdigest : ref.digest = some d) :
    CmdPush E name force s = (some (some "cannot push a digest reference"), s) := by
  simp [CmdPush, hparse, hdigest]

theorem CmdPush_digest_rejected_witness :
    demoEnv.ParseNamed "app@sha256:0"
      = .ok { Name := "app", tag := none, digest := some "sha256:0" } ∧
    CmdPush demoEnv "app@sha256:0" false { cli := demoCli ["y"], calls := [] }
      = (some (some "cannot push a digest reference"),
          { cli := demoCli ["y"], calls := [] }) :=
  ⟨rfl, CmdPush_digest_rejected demoEnv "app@sha256:0" false _
    { Name := "app", tag := none, digest := some "sha256:0" } "sha256:0" rfl rfl⟩

/-- C9: when some input line gives the answer "y" or "n", `confirmPush` reads the lines up to and
including the first such line and leaves the rest unread, writes the prompt once per line read,
returns true exactly when that line gives "y", and writes "Nothing pushed." exactly when it gives
"n"; the lines before it only repeat the prompt. -/
theorem confirmPush_first_answer {ω : Type} (E : Env ω) (cli : DockerCli ω)
    (hsome : ∃ l ∈ cli.inp, answerOf E l = "n" ∨ answerOf E l = "y") :
    ∃ pre l rest, cli.inp = pre ++ l :: rest ∧
      (∀ x ∈ pre, answerOf E x ≠ "n" ∧ answerOf E x ≠ "y") ∧
      (answerOf E l = "n" ∨ answerOf E l = "y") ∧
      (confirmPush E cli).1 = some (answerOf E l == "y") ∧
      (confirmPush E cli).2
        = { cli with
            inp := rest,
            out := cli.out ++ ("\n" :: List.replicate (pre.length + 1) confirmPrompt ++
              (if answerOf E l = "n" then ["Nothing pushed.\n"] else [])) } := by
  obtain ⟨pre, l, rest, hinp, hpre, hl⟩ := first_answer_split E cli.inp hsome
  refine ⟨pre, l, rest, hinp, hpre, hl, ?_, ?_⟩
  · rw [confirmPush_scan E cli pre l rest hinp hpre hl]
  · rw [confirmPush_scan E cli pre l rest hinp hpre hl]
    rfl

theorem confirmPush_first_answer_witness :
    (∃ l ∈ (demoCli ["maybe", "", "  N \t", "y"]).inp,
      answerOf demoEnv l = "n" ∨ answerOf demoEnv l = "y") ∧
    ∃ pre l rest, (demoCli ["maybe", "", "  N \t", "y"]).inp = pre ++ l :: rest ∧
      (∀ x ∈ pre, answerOf demoEnv x ≠ "n" ∧ answerOf demoEnv x ≠ "y") ∧
      (answerOf demoEnv l = "n" ∨ answerOf demoEnv l = "y") ∧
      (confirmPush demoEnv (demoCli ["maybe", "", "  N \t", "y"])).1
        = some (answerOf demoEnv l == "y") ∧
      (confirmPush demoEnv (demoCli ["maybe", "", "  N \t", "y"])).2
        = { demoCli ["maybe", "", "  N \t", "y"] with
            inp := rest,
            out := (demoCli ["maybe", "", "  N \t", "y"]).out ++
              ("\n" :: List.replicate (pre.length + 1) confirmPrompt ++
              (if answerOf demoEnv l = "n" then ["Nothing pushed.\n"] else [])) } :=
  ⟨⟨"  N \t", by decide, by decide⟩,
    confirmPush_first_answer demoEnv (demoCli ["maybe", "", "  N \t", "y"])
      ⟨"  N \t", by decide, by decide⟩⟩

/-- C4: with `force` set by the caller, a first attempt that fails with an error containing
"Status 403" is the whole run: `imagePushPrivileged` returns what the attempt returned, the client
is the one the attempt left (nothing more written, nothing read) and one push call was made. -/
theorem imagePushPrivileged_forced_forbidden {ω : Type} (E : Env ω) (ref : Reference)
    (tag : String) (cb : RequestPrivilegeFunc ω) (s : Session ω) (tok : String)
    (body : Option ReadCloser) (err : String) (cli1 : DockerCli ω)
    (htok : getEncodedAuth E s.cli ref = .ok tok)
    (hpush : E.ImagePush (firstOptions ref tag tok true) cb s.cli = ((body, some err), cli1))
    (_h403 : Contains err statusForbidden = true) :
    imagePushPrivileged E ref tag true cb s
      = (some (body, some err),
          { cli := cli1, calls := s.calls ++ [Call.ImagePush (firstOptions ref tag tok true)] }) :=
  imagePushPrivileged_one_attempt E ref tag true cb s tok body (some err) cli1 htok hpush
    (fun e _ => by simp)

theorem imagePushPrivileged_forced_forbidden_witness :
    (getEncodedAuth (demoEnvReplying (none, some "Error: Status 403 trying to push"))
        (demoCli ["y"]) demoRef = .ok "registry.example.com=bob;" ∧
      (demoEnvReplying (none, some "Error: Status 403 trying to push")).ImagePush
          (firstOptions demoRef "v1" "registry.example.com=bob;" true) demoPrivilege (demoCli ["y"])
        = ((none, some "Error: Status 403 trying to push"),
            { demoCli ["y"] with world := 1 }) ∧
      Contains "Error: Status 403 trying to push" statusForbidden = true) ∧
    imagePushPrivileged (demoEnvReplying (none, some "Error: Status 403 trying to push"))
        demoRef "v1" true demoPrivilege { cli := demoCli ["y"], calls := [] }
      = (some (none, some "Error: Status 403 trying to push"),
          { cli := { demoCli ["y"] with world := 1 },
            calls := [] ++ [Call.ImagePush
              (firstOptions demoRef "v1" "registry.example.com=bob;" true)] }) :=
  ⟨⟨rfl, rfl, by decide⟩,
    imagePushPrivileged_forced_forbidden
      (demoEnvReplying (none, some "Error: Status 403 trying to push")) demoRef "v1"
      demoPrivilege { cli := demoCli ["y"], calls := [] } "registry.example.com=bob;" none
      "Error: Status 403 trying to push" { demoCli ["y"] with world := 1 } rfl rfl (by decide)⟩

/-- C6: whatever the force flag, a first attempt that succeeds, or that fails with an error not
containing "Status 403", is the whole run: `imagePushPrivileged` returns the body and the error of
the attempt unchanged, the client is the one the attempt left (no prompt written, no line read)
and one push call was made. Hence the prompt is written only after a first attempt that came back
with a forbidden error. -/
theorem imagePushPrivileged_passes_through {ω : Type} (E : Env ω) (ref : Reference)
    (tag : String) (force : Bool) (cb : RequestPrivilegeFunc ω) (s : Session ω) (tok : String)
    (body : Option ReadCloser) (err : Option String) (cli1 : DockerCli ω)
    (htok : getEncodedAuth E s.cli ref = .ok tok)
    (hpush : E.ImagePush (firstOptions ref tag tok force) cb s.cli = ((body, err), cli1))
    (hother : ∀ e, err = some e → Contains e statusForbidden = false) :
    imagePushPrivileged E ref tag force cb s
      = (some (body, err),
          { cli := cli1, calls := s.calls ++ [Call.ImagePush (firstOptions ref tag tok force)] }) :=
  imagePushPrivileged_one_attempt E ref tag force cb s tok body err cli1 htok hpush
    (fun e he => by simp [hother e he])

theorem imagePushPrivileged_passes_through_witness :
    (getEncodedAuth (demoEnvReplying (none, some "dial tcp: connection refused"))
        (demoCli ["y"]) demoRef = .ok "registry.example.com=bob;" ∧
      (demoEnvReplying (none, some "dial tcp: connection refused")).ImagePush
          (firstOptions demoRef "v1" "registry.example.com=bob;" false) demoPrivilege
          (demoCli ["y"])
        = ((none, some "dial tcp: connection refused"), { demoCli ["y"] with world := 1 }) ∧
      ∀ e, some "dial tcp: connection refused" = some e → Contains e statusForbidden = false) ∧
    imagePushPrivileged (demoEnvReplying (none, some "dial tcp: connection refused"))
        demoRef "v1" false demoPrivilege { cli := demoCli ["y"], calls := [] }
      = (some (none, some "dial tcp: connection refused"),
          { cli := { demoCli ["y"] with world := 1 },
            calls := [] ++ [Call.ImagePush
              (firstOptions demoRef "v1" "registry.example.com=bob;" false)] }) :=
  ⟨⟨rfl, rfl, fun e he => by cases he; decide⟩,
    imagePushPrivileged_passes_through
      (demoEnvReplying (none, some "dial tcp: connection refused")) demoRef "v1" false
      demoPrivilege { cli := demoCli ["y"], calls := [] } "registry.example.com=bob;" none
      (some "dial tcp: connection refused") { demoCli ["y"] with world := 1 } rfl rfl
      (fun e he => by cases he; decide)⟩

/-- C3: after a first attempt without force that fails with an error containing "Status 403", if
the first input line that gives an answer gives "n" (after trimming and lower-casing),
`imagePushPrivileged` returns no body and no error, and the only call made is the first push. -/
theorem imagePushPrivileged_declined {ω : Type} (E : Env ω) (ref : Reference) (tag : String)
    (cb : RequestPrivilegeFunc ω) (s : Session ω) (tok : String) (body : Option ReadCloser)
    (err : String) (cli1 : DockerCli ω) (pre : List String) (l : String) (rest : List String)
    (htok : getEncodedAuth E s.cli ref = .ok tok)
    (hpush : E.ImagePush (firstOptions ref tag tok false) cb s.cli = ((body, some err), cli1))
    (h403 : Contains err statusForbidden = true)
    (hinp : cli1.inp = pre ++ l :: rest)
    (hpre : ∀ x ∈ pre, answerOf E x ≠ "n" ∧ answerOf E x ≠ "y")
    (hl : answerOf E l = "n") :
    imagePushPrivileged E ref tag false cb s
      = (some (none, none),
          { cli := afterConfirm cli1 (pre.length + 1) "n" rest,
            calls := s.calls ++ [Call.ImagePush (firstOptions ref tag tok false)] }) := by
  rw [imagePushPrivileged_forbidden E ref tag cb s tok body err cli1 htok hpush h403,
    confirmPush_scan E cli1 pre l rest hinp hpre (Or.inl hl), hl]
  rfl

theorem imagePushPrivileged_declined_witness :
    (getEncodedAuth demoEnv (demoCli ["what?", " N\t", "y"]) demoRef
        = .ok "registry.example.com=bob;" ∧
      demoEnv.ImagePush (firstOptions demoRef "v1" "registry.example.com=bob;" false)
          demoPrivilege (demoCli ["what?", " N\t", "y"])
        = ((none, some "Error: Status 403 trying to push"),
            { demoCli ["what?", " N\t", "y"] with world := 1 }) ∧
      Contains "Error: Status 403 trying to push" statusForbidden = true ∧
      (∀ x ∈ ["what?"], answerOf demoEnv x ≠ "n" ∧ answerOf demoEnv x ≠ "y") ∧
      answerOf demoEnv " N\t" = "n") ∧
    imagePushPrivileged demoEnv demoRef "v1" false demoPrivilege
        { cli := demoCli ["what?", " N\t", "y"], calls := [] }
      = (some (none, none),
          { cli := afterConfirm { demoCli ["what?", " N\t", "y"] with world := 1 }
              (["what?"].length + 1) "n" ["y"],
            calls := [] ++ [Call.ImagePush
              (firstOptions demoRef "v1" "registry.example.com=bob;" false)] }) :=
  ⟨⟨rfl, rfl, by decide, by decide, by decide⟩,
    imagePushPrivileged_declined demoEnv demoRef "v1" demoPrivilege
      { cli := demoCli ["what?", " N\t", "y"], calls := [] } "registry.example.com=bob;" none
      "Error: Status 403 trying to push" { demoCli ["what?", " N\t", "y"] with world := 1 }
      ["what?"] " N\t" ["y"] rfl rfl (by decide) rfl (by decide) (by decide)⟩

/-- C2, the claim as stated fails: in `demoEnv` the first attempt is refused with "Status 403",
the user answers "y", and the retry carries the very token of the first attempt; the login
message of the privilege callback was never written and the store is the one of the start, so no
escalation took place. -/
theorem imagePushPrivileged_retry_token_unchanged :
    demoEnv.ImagePush (firstOptions demoRef "v1" "registry.example.com=bob;" false)
        demoPrivilege (demoCli ["y"])
      = ((none, some "Error: Status 403 trying to push"), { demoCli ["y"] with world := 1 }) ∧
    imagePushPrivileged demoEnv demoRef "v1" false demoPrivilege
        { cli := demoCli ["y"], calls := [] }
      = (some (some "pushed", none),
          { cli := { AuthConfigs := demoStore, inp := [], out := ["\n", confirmPrompt],
                     world := 2 },
            calls :=
              [Call.ImagePush
                ⟨"registry.example.com/team/app", "v1", "registry.example.com=bob;", false⟩,
               Call.ImagePush
                ⟨"registry.example.com/team/app", "v1", "registry.example.com=bob;", true⟩] }) := by
  constructor
  · rfl
  · decide

/-- C2, amended: after a first attempt without force that fails with an error containing
"Status 403", if the first input line that gives an answer gives "y", the run makes exactly two
push calls, the retry with force set and with the same token, image name and tag as the first
attempt. Between the two attempts only `confirmPush` touches the client: `imagePushPrivileged`
builds no second token and does not run the privilege callback, which is only handed to both
push calls. -/
theorem imagePushPrivileged_retry_same_token {ω : Type} (E : Env ω) (ref : Reference)
    (tag : String) (cb : RequestPrivilegeFunc ω) (s : Session ω) (tok : String)
    (body : Option ReadCloser) (err : String) (cli1 : DockerCli ω) (pre : List String)
    (l : String) (rest : List String)
    (htok : getEncodedAuth E s.cli ref = .ok tok)
    (hpush : E.ImagePush (firstOptions ref tag tok false) cb s.cli = ((body, some err), cli1))
    (h403 : Contains err statusForbidden = true)
    (hinp : cli1.inp = pre ++ l :: rest)
    (hpre : ∀ x ∈ pre, answerOf E x ≠ "n" ∧ answerOf E x ≠ "y")
    (hl : answerOf E l = "y") :
    (imagePushPrivileged E ref tag false cb s).2
      = { cli := (E.ImagePush
            { ImageID := ref.Name, Tag := tag, RegistryAuth := tok, Force := true } cb
            (afterConfirm cli1 (pre.length + 1) "y" rest)).2,
          calls := s.calls ++
            [Call.ImagePush { ImageID := ref.Name, Tag := tag, RegistryAuth := tok, Force := false },
             Call.ImagePush { ImageID := ref.Name, Tag := tag, RegistryAuth := tok, Force := true }] }
      := by
  rw [imagePushPrivileged_forbidden E ref tag cb s tok body err cli1 htok hpush h403,
    confirmPush_scan E cli1 pre l rest hinp hpre (Or.inr hl), hl]
  rfl

theorem imagePushPrivileged_retry_same_token_witness :
    (getEncodedAuth demoEnv (demoCli ["", "Y ", "n"]) demoRef = .ok "registry.example.com=bob;" ∧
      demoEnv.ImagePush (firstOptions demoRef "v1" "registry.example.com=bob;" false)
          demoPrivilege (demoCli ["", "Y ", "n"])
        = ((none, some "Error: Status 403 trying to push"),
            { demoCli ["", "Y ", "n"] with world := 1 }) ∧
      Contains "Error: Status 403 trying to push" statusForbidden = true ∧
      (∀ x ∈ [""], answerOf demoEnv x ≠ "n" ∧ answerOf demoEnv x ≠ "y") ∧
      answerOf demoEnv "Y " = "y") ∧
    (imagePushPrivileged demoEnv demoRef "v1" false demoPrivilege
        { cli := demoCli ["", "Y ", "n"], calls := [] }).2
      = { cli := (demoEnv.ImagePush
            ⟨demoRef.Name, "v1", "registry.example.com=bob;", true⟩ demoPrivilege
            (afterConfirm { demoCli ["", "Y ", "n"] with world := 1 } ([""].length + 1) "y"
              ["n"])).2,
          calls := [] ++
            [Call.ImagePush ⟨demoRef.Name, "v1", "registry.example.com=bob;", false⟩,
             Call.ImagePush ⟨demoRef.Name, "v1", "registry.example.com=bob;", true⟩] } :=
  ⟨⟨rfl, rfl, by decide, by decide, by decide⟩,
    imagePushPrivileged_retry_same_token demoEnv demoRef "v1" demoPrivilege
      { cli := demoCli ["", "Y ", "n"], calls := [] } "registry.example.com=bob;" none
      "Error: Status 403 trying to push" { demoCli ["", "Y ", "n"] with world := 1 }
      [""] "Y " ["n"] rfl rfl (by decide) rfl (by decide) (by decide)⟩

/-- C8: after a first attempt without force that fails with an error containing "Status 403", if
the first input line that gives an answer gives "y", the push is retried once, with force set and
the image name and tag of the first attempt; the body and error of the retry are returned as they
are, whatever they are, and the client is the one the retry left, so no second prompt is
written. And for every collaborator behaviour and every input, `imagePushPrivileged` adds at most
two calls to the record, all of them pushes. -/
theorem imagePushPrivileged_retries_once {ω : Type} (E : Env ω) (ref : Reference)
    (tag : String) (cb : RequestPrivilegeFunc ω) (s : Session ω) (tok : String)
    (body : Option ReadCloser) (err : String) (cli1 : DockerCli ω) (pre : List String)
    (l : String) (rest : List String)
    (htok : getEncodedAuth E s.cli ref = .ok tok)
    (hpush : E.ImagePush (firstOptions ref tag tok false) cb s.cli = ((body, some err), cli1))
    (h403 : Contains err statusForbidden = true)
    (hinp : cli1.inp = pre ++ l :: rest)
    (hpre : ∀ x ∈ pre, answerOf E x ≠ "n" ∧ answerOf E x ≠ "y")
    (hl : answerOf E l = "y") :
    (∃ first retry : ImagePushOptions,
      (imagePushPrivileged E ref tag false cb s).2.calls
        = s.calls ++ [Call.ImagePush first, Call.ImagePush retry] ∧
      first.Force = false ∧ retry.Force = true ∧
      retry.ImageID = first.ImageID ∧ retry.Tag = first.Tag ∧
      (imagePushPrivileged E ref tag false cb s).1
        = some (E.ImagePush retry cb (afterConfirm cli1 (pre.length + 1) "y" rest)).1 ∧
      (imagePushPrivileged E ref tag false cb s).2.cli
        = (E.ImagePush retry cb (afterConfirm cli1 (pre.length + 1) "y" rest)).2) ∧
    (∀ (E2 : Env ω) (ref2 : Reference) (tag2 : String) (force2 : Bool)
        (cb2 : RequestPrivilegeFunc ω) (s2 : Session ω),
      ∃ new : List Call,
        (imagePushPrivileged E2 ref2 tag2 force2 cb2 s2).2.calls = s2.calls ++ new ∧
        new.length ≤ 2 ∧ ∀ c ∈ new, ∃ o, c = Call.ImagePush o) := by
  refine ⟨⟨firstOptions ref tag tok false, firstOptions ref tag tok true, ?_⟩,
    fun E2 ref2 tag2 force2 cb2 s2 => imagePushPrivileged_calls E2 ref2 tag2 force2 cb2 s2⟩
  rw [imagePushPrivileged_forbidden E ref tag cb s tok body err cli1 htok hpush h403,
    confirmPush_scan E cli1 pre l rest hinp hpre (Or.inr hl), hl]
  exact ⟨rfl, rfl, rfl, rfl, rfl, rfl, rfl⟩

theorem imagePushPrivileged_retries_once_witness :
    (getEncodedAuth demoEnv (demoCli ["yes", "y"]) demoRef = .ok "registry.example.com=bob;" ∧
      demoEnv.ImagePush (firstOptions demoRef "v1" "registry.example.com=bob;" false)
          demoPrivilege (demoCli ["yes", "y"])
        = ((none, some "Error: Status 403 trying to push"),
            { demoCli ["yes", "y"] with world := 1 }) ∧
      Contains "Error: Status 403 trying to push" statusForbidden = true ∧
      (∀ x ∈ ["yes"], answerOf demoEnv x ≠ "n" ∧ answerOf demoEnv x ≠ "y") ∧
      answerOf demoEnv "y" = "y") ∧
    ∃ first retry : ImagePushOptions,
      (imagePushPrivileged demoEnv demoRef "v1" false demoPrivilege
          { cli := demoCli ["yes", "y"], calls := [] }).2.calls
        = [] ++ [Call.ImagePush first, Call.ImagePush retry] ∧
      first.Force = false ∧ retry.Force = true ∧
      retry.ImageID = first.ImageID ∧ retry.Tag = first.Tag ∧
      (imagePushPrivileged demoEnv demoRef "v1" false demoPrivilege
          { cli := demoCli ["yes", "y"], calls := [] }).1
        = some (demoEnv.ImagePush retry demoPrivilege
            (afterConfirm { demoCli ["yes", "y"] with world := 1 } (["yes"].length + 1) "y"
              [])).1 ∧
      (imagePushPrivileged demoEnv demoRef "v1" false demoPrivilege
          { cli := demoCli ["yes", "y"], calls := [] }).2.cli
        = (demoEnv.ImagePush retry demoPrivilege
            (afterConfirm { demoCli ["yes", "y"] with world := 1 } (["yes"].length + 1) "y"
              [])).2 :=
  ⟨⟨rfl, rfl, by decide, by decide, by decide⟩,
    (imagePushPrivileged_retries_once demoEnv demoRef "v1" demoPrivilege
      { cli := demoCli ["yes", "y"], calls := [] } "registry.example.com=bob;" none
      "Error: Status 403 trying to push" { demoCli ["yes", "y"] with world := 1 }
      ["yes"] "y" [] rfl rfl (by decide) rfl (by decide) (by decide)).1⟩

/-! ## logout -/

theorem CmdLogout_unfold {ω : Type} (E : Env ω) (args : List String) (s : Session ω) :
    CmdLogout E args s
      = match mapLookup s.cli.AuthConfigs
          (logoutServerAddress E args (E.Info s.cli.world).1) with
        | none => (none, (afterInfo E s).write ("Not logged in to " ++
            logoutServerAddress E args (E.Info s.cli.world).1 ++ "\n"))
        | some _ =>
          match configFileSave E
              (beforeSave E s (logoutServerAddress E args (E.Info s.cli.world).1)) with
          | (some err, s4) => (some ("Failed to save docker config: " ++ err), s4)
          | (none, s4) => (none, s4) := by
  rcases hinfo : E.Info s.cli.world with ⟨info | info, w⟩ <;> cases args <;>
    simp [CmdLogout, clientInfo, Session.write, logoutServerAddress, afterInfo, beforeSave, hinfo]

theorem afterInfo_facts {ω : Type} (E : Env ω) (s : Session ω) :
    (afterInfo E s).cli.AuthConfigs = s.cli.AuthConfigs ∧
    (afterInfo E s).cli.world = (E.Info s.cli.world).2 ∧
    (afterInfo E s).calls = s.calls ++ [Call.Info] := by
  rcases hinfo : E.Info s.cli.world with ⟨info | info, w⟩ <;>
    simp [afterInfo, clientInfo, Session.write, hinfo]

theorem configFileSave_beforeSave {ω : Type} (E : Env ω) (s : Session ω) (addr : String) :
    configFileSave E (beforeSave E s addr)
      = ((E.Save (mapDelete s.cli.AuthConfigs addr) (E.Info s.cli.world).2).1,
          { cli := { (beforeSave E s addr).cli with
                     world := (E.Save (mapDelete s.cli.AuthConfigs addr)
                       (E.Info s.cli.world).2).2 },
            calls := s.calls ++ [Call.Info, Call.Save (mapDelete s.cli.AuthConfigs addr)] }) := by
  have hw : (beforeSave E s addr).cli.world = (E.Info s.cli.world).2 := (afterInfo_facts E s).2.1
  have ha : (beforeSave E s addr).cli.AuthConfigs = mapDelete s.cli.AuthConfigs addr := rfl
  have hc : (beforeSave E s addr).calls = s.calls ++ [Call.Info] := rfl
  unfold configFileSave
  rw [hw, ha, hc]
  simp

/-- C10: let `addr` be the server address `CmdLogout` works on. If the store has no entry under
`addr`, `CmdLogout` returns no error, the store is unchanged and the only call made is the one
asking the daemon: nothing is saved. Otherwise the store afterwards has no entry under `addr`,
reads of every other key are unchanged, the store is saved once, after the removal, and an error
is returned exactly when the save fails. -/
theorem CmdLogout_effect {ω : Type} (E : Env ω) (args : List String) (s : Session ω)
    (addr : String) (haddr : addr = logoutServerAddress E args (E.Info s.cli.world).1) :
    (mapLookup s.cli.AuthConfigs addr = none →
      (CmdLogout E args s).1 = none ∧
      (CmdLogout E args s).2.cli.AuthConfigs = s.cli.AuthConfigs ∧
      (CmdLogout E args s).2.calls = s.calls ++ [Call.Info]) ∧
    (mapLookup s.cli.AuthConfigs addr ≠ none →
      mapLookup (CmdLogout E args s).2.cli.AuthConfigs addr = none ∧
      (∀ k, k ≠ addr →
        mapLookup (CmdLogout E args s).2.cli.AuthConfigs k = mapLookup s.cli.AuthConfigs k) ∧
      (CmdLogout E args s).2.calls
        = s.calls ++ [Call.Info, Call.Save (mapDelete s.cli.AuthConfigs addr)] ∧
      ((CmdLogout E args s).1 ≠ none ↔
        (E.Save (mapDelete s.cli.AuthConfigs addr) (E.Info s.cli.world).2).1 ≠ none)) := by
  obtain ⟨hstore, hworld, hcalls⟩ := afterInfo_facts E s
  subst haddr
  rw [CmdLogout_unfold]
  constructor
  · intro hnone
    rw [hnone]
    exact ⟨rfl, hstore, hcalls⟩
  · intro hsome
    rcases hl : mapLookup s.cli.AuthConfigs
      (logoutServerAddress E args (E.Info s.cli.world).1) with _ | v
    · exact absurd hl hsome
    · rw [configFileSave_beforeSave]
      rcases hsave : E.Save
        (mapDelete s.cli.AuthConfigs (logoutServerAddress E args (E.Info s.cli.world).1))
        (E.Info s.cli.world).2 with ⟨_ | err, w⟩
      · exact ⟨mapLookup_mapDelete_self _ _, fun k hk => mapLookup_mapDelete_other _ _ k hk,
          rfl, by simp⟩
      · exact ⟨mapLookup_mapDelete_self _ _, fun k hk => mapLookup_mapDelete_other _ _ k hk,
          rfl, by simp⟩

theorem CmdLogout_effect_witness :
    "other.io" = logoutServerAddress demoEnv ["other.io"] (demoEnv.Info (demoCli []).world).1 ∧
    mapLookup demoStore "other.io" ≠ none ∧
    mapLookup (CmdLogout demoEnv ["other.io"] { cli := demoCli [], calls := [] }).2.cli.AuthConfigs
      "other.io" = none ∧
    (CmdLogout demoEnv ["other.io"] { cli := demoCli [], calls := [] }).2.calls
      = [] ++ [Call.Info, Call.Save (mapDelete demoStore "other.io")] :=
  ⟨by decide, by decide,
    ((CmdLogout_effect demoEnv ["other.io"] { cli := demoCli [], calls := [] } "other.io"
      (by decide)).2 (by decide)).1,
    ((CmdLogout_effect demoEnv ["other.io"] { cli := demoCli [], calls := [] } "other.io"
      (by decide)).2 (by decide)).2.2.1⟩

end Docker
